import Mathlib

/-!
Verification of the SafePOSIX core (filesystem metadata store, socket state
machine, memory-mapped journal, readiness multiplexing) against its source.
The Rust source under `src/safeposix/filesystem.rs`,
`src/safeposix/syscalls/net_calls.rs` and `src/interface/file.rs` is shallowly
embedded below: hash maps become association lists, `&mut` state threading
becomes explicit state passing, panicking or fallible code returns
`Option`/`Except`, and machine integers become `Nat`/`Int` (the values
involved never overflow their Rust types).  Rust strings are kept as `String`;
normalized paths are represented by their list of `Normal` components (the
`RootDir` component of an absolute path carries no information and is skipped
by every consumer in the source).
-/

namespace SafePosix

/-! ## Numeric constants

The constant definitions from `fs_constants.rs` / `net_constants.rs` /
`sys_constants.rs` are not part of the excerpted source; their values are the
standard Linux values recorded in the design document (address families
`AF_UNIX = 1`, `AF_INET = 2`, `AF_INET6 = 30`; errno values; POSIX mode bits).
-/

def AF_UNIX : Int := 1
def AF_INET : Int := 2
def AF_INET6 : Int := 30
def PF_UNIX : Int := 1
def PF_INET : Int := 2
def SOCK_STREAM : Int := 1
def SOCK_DGRAM : Int := 2
def IPPROTO_TCP : Int := 6
def IPPROTO_UDP : Int := 17
def SHUT_RD : Int := 0
def SHUT_WR : Int := 1
def SHUT_RDWR : Int := 2
def EPOLL_CTL_ADD : Int := 1
def EPOLL_CTL_DEL : Int := 2
def EPOLL_CTL_MOD : Int := 3
def MSG_PEEK : Int := 2

def ENOENT : Int := 2
def EBADF : Int := 9
def EAGAIN : Int := 11
def EEXIST : Int := 17
def ENOTDIR : Int := 20
def EINVAL : Int := 22
def ENOTSOCK : Int := 88
def EOPNOTSUPP : Int := 95
def EADDRINUSE : Int := 98
def ENOTCONN : Int := 107

/-- Mirrors `syscall_error`: every failure surfaces as `-errno`. -/
def syscall_error (e : Int) : Int := -e

def S_IRWXA : Nat := 0o777
def S_IFCHR : Nat := 0o20000
def S_IFDIR : Nat := 0o40000
def S_IFSOCK : Nat := 0o140000
def S_FILETYPEFLAGS : Nat := 0o170000
def DEFAULT_UID : Nat := 1000
def DEFAULT_GID : Nat := 1000
def ROOTDIRECTORYINODE : Nat := 1
def STREAMINODE : Nat := 2

/-! String literals used as directory-entry names and path fragments. -/

def sEmpty : String := ""
def sSlash : String := "/"
def sDot : String := "."
def sDotDot : String := ".."
def sDev : String := "dev"
def sNull : String := "null"
def sZero : String := "zero"
def sUrandom : String := "urandom"
def sRandom : String := "random"
def sTmp : String := "tmp"

/-! ## Association-list maps

`interface::RustHashMap` is embedded as an association list with
first-match lookup; `insert` replaces any existing binding, `remove`
deletes it.  Only the key-to-value mapping of the hash map is observable
in the excerpted source, so the embedding is faithful up to iteration
order.
-/

def alLookup [DecidableEq α] : List (α × β) → α → Option β
  | [], _ => none
  | p :: rest, k => if p.1 = k then some p.2 else alLookup rest k

def alRemove [DecidableEq α] : List (α × β) → α → List (α × β)
  | [], _ => []
  | p :: rest, k => if p.1 = k then alRemove rest k else p :: alRemove rest k

def alInsert [DecidableEq α] (m : List (α × β)) (k : α) (v : β) : List (α × β) :=
  alRemove m k ++ [(k, v)]

def alContains [DecidableEq α] (m : List (α × β)) (k : α) : Bool :=
  (alLookup m k).isSome

/-- `interface::RustHashSet` insertion (idempotent). -/
def setInsert [DecidableEq α] (s : List α) (x : α) : List α :=
  if x ∈ s then s else s ++ [x]

/-! ## Filesystem metadata (filesystem.rs) -/

structure DevNo where
  major : Nat
  minor : Nat
  deriving DecidableEq, Repr

structure GenericInode where
  size : Nat
  uid : Nat
  gid : Nat
  mode : Nat
  linkcount : Nat
  refcount : Nat
  atime : Nat
  ctime : Nat
  mtime : Nat
  deriving DecidableEq, Repr

structure DeviceInode where
  size : Nat
  uid : Nat
  gid : Nat
  mode : Nat
  linkcount : Nat
  refcount : Nat
  atime : Nat
  ctime : Nat
  mtime : Nat
  dev : DevNo
  deriving DecidableEq, Repr

structure SocketInode where
  size : Nat
  uid : Nat
  gid : Nat
  mode : Nat
  linkcount : Nat
  refcount : Nat
  atime : Nat
  ctime : Nat
  mtime : Nat
  deriving DecidableEq, Repr

structure DirectoryInode where
  size : Nat
  uid : Nat
  gid : Nat
  mode : Nat
  linkcount : Nat
  refcount : Nat
  atime : Nat
  ctime : Nat
  mtime : Nat
  filename_to_inode_dict : List (String × Nat)
  deriving DecidableEq, Repr

inductive Inode where
  | File (g : GenericInode)
  | CharDev (d : DeviceInode)
  | Socket (s : SocketInode)
  | Dir (d : DirectoryInode)
  deriving DecidableEq, Repr

structure FilesystemMetadata where
  nextinode : Nat
  dev_id : Nat
  inodetable : List (Nat × Inode)
  deriving DecidableEq, Repr

/-- Mirrors `init_filename_to_inode_dict`: a fresh directory map holding
`"."` and `".."`. -/
def init_filename_to_inode_dict (curinode parentinode : Nat) : List (String × Nat) :=
  alInsert (alInsert [] sDot curinode) sDotDot parentinode

/-- Mirrors `FilesystemMetadata::blank_fs_init`.  `interface::timestamp()`
is threaded as the `time` parameter. -/
def blank_fs_init (time : Nat) : FilesystemMetadata :=
  { nextinode := STREAMINODE + 1
    dev_id := 20
    inodetable :=
      alInsert []
        ROOTDIRECTORYINODE
        (Inode.Dir
          { size := 0, uid := DEFAULT_UID, gid := DEFAULT_GID
            mode := Nat.lor S_IFDIR S_IRWXA
            linkcount := 3, refcount := 0
            atime := time, ctime := time, mtime := time
            filename_to_inode_dict :=
              init_filename_to_inode_dict ROOTDIRECTORYINODE ROOTDIRECTORYINODE }) }

/-- Mirrors `format_fs` (filesystem.rs lines 164-279) up to the persistence
calls (`removefile` / `persist_metadata` touch only the disk, not the
metadata value).  The `unreachable!()` branch of the root-directory update
is modelled as the identity; it is dead because `blank_fs_init` always
places `Inode::Dir` at `ROOTDIRECTORYINODE`. -/
def format_fs (time : Nat) : FilesystemMetadata :=
  let newmetadata := blank_fs_init time
  let table0 :=
    match alLookup newmetadata.inodetable ROOTDIRECTORYINODE with
    | some (Inode.Dir rootdir) =>
      alInsert newmetadata.inodetable ROOTDIRECTORYINODE
        (Inode.Dir
          { rootdir with
            filename_to_inode_dict := alInsert rootdir.filename_to_inode_dict sDev 2
            linkcount := rootdir.linkcount + 1 })
    | _ => newmetadata.inodetable
  let devchildren :=
    alInsert (alInsert (alInsert (alInsert (alInsert (alInsert []
      sDotDot 1) sDot 2) sNull 3) sZero 4) sUrandom 5) sRandom 6
  let tmpchildren := alInsert (alInsert [] sDotDot 1) sDot 2
  let devdirinode := Inode.Dir
    { size := 0, uid := DEFAULT_UID, gid := DEFAULT_GID
      mode := Nat.lor S_IFDIR 0o755
      linkcount := 3 + 4, refcount := 0
      atime := time, ctime := time, mtime := time
      filename_to_inode_dict := devchildren }
  let nullinode := Inode.CharDev
    { size := 0, uid := DEFAULT_UID, gid := DEFAULT_UID
      mode := Nat.lor S_IFCHR 0o666
      linkcount := 1, refcount := 0
      atime := time, ctime := time, mtime := time
      dev := { major := 1, minor := 3 } }
  let zeroinode := Inode.CharDev
    { size := 0, uid := DEFAULT_UID, gid := DEFAULT_UID
      mode := Nat.lor S_IFCHR 0o666
      linkcount := 1, refcount := 0
      atime := time, ctime := time, mtime := time
      dev := { major := 1, minor := 5 } }
  let urandominode := Inode.CharDev
    { size := 0, uid := DEFAULT_UID, gid := DEFAULT_UID
      mode := Nat.lor S_IFCHR 0o666
      linkcount := 1, refcount := 0
      atime := time, ctime := time, mtime := time
      dev := { major := 1, minor := 9 } }
  let randominode := Inode.CharDev
    { size := 0, uid := DEFAULT_UID, gid := DEFAULT_UID
      mode := Nat.lor S_IFCHR 0o666
      linkcount := 1, refcount := 0
      atime := time, ctime := time, mtime := time
      dev := { major := 1, minor := 8 } }
  let tmpdirinode := Inode.Dir
    { size := 0, uid := DEFAULT_UID, gid := DEFAULT_GID
      mode := Nat.lor S_IFDIR 0o755
      linkcount := 3 + 4, refcount := 0
      atime := time, ctime := time, mtime := time
      filename_to_inode_dict := tmpchildren }
  { nextinode := 8
    dev_id := newmetadata.dev_id
    inodetable :=
      alInsert (alInsert (alInsert (alInsert (alInsert (alInsert table0
        2 devdirinode) 3 nullinode) 4 zeroinode) 5 urandominode)
        6 randominode) 7 tmpdirinode }

/-- The loop body of `metawalkandparent`.  A path is its list of `Normal`
components.  The outer `Option` is the panic monad: `none` marks the
`curnode.unwrap()` panic reached when a directory entry points at an inode
number missing from the table. -/
def metawalk_go (t : List (Nat × Inode)) :
    List String → Option Inode → Option Nat → Option Nat →
    Option (Option Nat × Option Nat)
  | [], _, inodeno, previnodeno => some (inodeno, previnodeno)
  | f :: rest, curnode, inodeno, previnodeno =>
    match inodeno with
    | none => some (none, none)
    | some ino =>
      match curnode with
      | none => none
      | some (Inode.Dir d) =>
        match alLookup d.filename_to_inode_dict f with
        | some num => metawalk_go t rest (alLookup t num) (some num) (some ino)
        | none => metawalk_go t rest none none (some ino)
      | some _ =>
        let _ := previnodeno
        some (none, none)

/-- Mirrors `metawalkandparent` (filesystem.rs lines 488-541): resolve a
normalized path to `(inode number, parent inode number)`.  `none` marks the
panic on `inodetable.get(&ROOTDIRECTORYINODE).unwrap()` when the table has
no root, or a broken link during the walk. -/
def metawalkandparent (t : List (Nat × Inode)) (path : List String) :
    Option (Option Nat × Option Nat) :=
  match alLookup t ROOTDIRECTORYINODE with
  | none => none
  | some root => metawalk_go t path (some root) (some ROOTDIRECTORYINODE) none

/-- Mirrors `metawalk`: the first component of `metawalkandparent`. -/
def metawalk (t : List (Nat × Inode)) (path : List String) : Option (Option Nat) :=
  (metawalkandparent t path).map Prod.fst

/-- Mirrors `normpath` (filesystem.rs lines 545-570): prefix a relative path
with the cage's cwd, drop `.`/root markers, pop on `..`.  `String.splitOn`
plus skipping empty fragments yields exactly the `Normal` components that
`RustPath::components` yields. -/
def normpath (cwd : List String) (origp : String) : List String :=
  let start := if origp.startsWith sSlash then [] else cwd
  (origp.splitOn sSlash).foldl
    (fun acc c =>
      if c = sEmpty ∨ c = sDot then acc
      else if c = sDotDot then acc.dropLast
      else acc ++ [c])
    start

/-- One journal record applied to the `(max_inodenum, inodetable)`
accumulator: the loop body of the journal replay in `load_fs`
(filesystem.rs lines 311-322).  A `Some` record inserts or replaces and
raises the running maximum; a `None` record deletes. -/
def replay_step (acc : Nat × List (Nat × Inode)) (serialpair : Nat × Option Inode) :
    Nat × List (Nat × Inode) :=
  match serialpair.2 with
  | some inode => (max acc.1 serialpair.1, alInsert acc.2 serialpair.1 inode)
  | none => (acc.1, alRemove acc.2 serialpair.1)

/-- The maximum tracked by the replay loop, viewed on its own. -/
def replay_max_step (m : Nat) (serialpair : Nat × Option Inode) : Nat :=
  if serialpair.2.isSome then max m serialpair.1 else m

/-- Mirrors the journal-replay phase of `load_fs` (filesystem.rs lines
281-344) for the case where both the snapshot and the journal are present:
`st` is the deserialized snapshot, `logvec` the decoded journal records.
The records are drained in order; afterwards `nextinode` is stored as the
tracked maximum plus one.  (`fsck` and the journal-file removal follow in
the source and are outside this phase.) -/
def load_fs_replay (st : FilesystemMetadata) (logvec : List (Nat × Option Inode)) :
    FilesystemMetadata :=
  let res := logvec.foldl replay_step (st.nextinode, st.inodetable)
  { st with nextinode := res.1 + 1, inodetable := res.2 }

/-! ## Socket connection states -/

/-- `ConnState` from `net.rs`: the per-handle connection state machine. -/
inductive ConnState where
  | NOTCONNECTED
  | CONNECTED
  | LISTEN
  | INPROGRESS
  | CONNRDONLY
  | CONNWRONLY
  deriving DecidableEq, Repr

/-! ## Shutdown state transition (net_calls.rs lines 1488-1516)

Embeds the final `match how` block of `_cleanup_socket_inner_helper`, the
code that "change[s] the connections for all socket types".  For an
`AF_UNIX` socket with `shutdown = true` the helper executes exactly this
block; for inet sockets the preceding kernel-shutdown block does not
modify `state`.
-/

def cleanup_socket_state_change (state : ConnState) (how : Int) :
    Except Int ConnState :=
  if how = SHUT_RD then
    .ok (if state = ConnState.CONNWRONLY then ConnState.NOTCONNECTED
         else ConnState.CONNWRONLY)
  else if how = SHUT_WR then
    .ok (if state = ConnState.CONNRDONLY then ConnState.NOTCONNECTED
         else ConnState.CONNRDONLY)
  else if how = SHUT_RDWR then
    .ok ConnState.NOTCONNECTED
  else
    .error (syscall_error EINVAL)

/-! ## socket_syscall (net_calls.rs lines 78-158)

Embeds the argument-validation and dispatch logic of `socket_syscall`.  On
acceptance the source builds a `SocketDesc` via `_socket_initializer` and
allocates a file descriptor via `_socket_inserter`; the embedding returns
the `(domain, socktype, newprotocol)` triple passed to the initializer,
abstracting from the fd-table allocation, which cannot affect whether an
argument combination is accepted.
-/

def socket_syscall (domain socktype protocol : Int) :
    Except Int (Int × Int × Int) :=
  let real_socktype := Int.land socktype 0x7
  if real_socktype = SOCK_STREAM then
    let newprotocol := if protocol = 0 then IPPROTO_TCP else protocol
    if newprotocol ≠ IPPROTO_TCP then .error (syscall_error EOPNOTSUPP)
    else if domain = PF_INET ∨ domain = PF_UNIX then
      .ok (domain, socktype, newprotocol)
    else .error (syscall_error EOPNOTSUPP)
  else if real_socktype = SOCK_DGRAM then
    let newprotocol := if protocol = 0 then IPPROTO_UDP else protocol
    if newprotocol ≠ IPPROTO_UDP then .error (syscall_error EOPNOTSUPP)
    else if domain = PF_INET ∨ domain = PF_UNIX then
      .ok (domain, socktype, newprotocol)
    else .error (syscall_error EOPNOTSUPP)
  else .error (syscall_error EOPNOTSUPP)

/-! ## epoll_ctl (net_calls.rs lines 2680-2723)

Embeds the `match op` block of `epoll_ctl_syscall`, reached after the
surrounding code has verified that `epfd` is an epoll fd and `fd` is a
valid non-epoll fd.  The state is the epoll object's `registered_fds`
map.  `EPOLL_CTL_DEL` performs `registered_fds.remove(&fd).unwrap()`:
the `unwrap` of the removal result panics when `fd` was not registered,
recorded by the outcome `panicked`.
-/

structure EpollEvent where
  events : Nat
  fd : Int
  deriving DecidableEq, Repr

inductive CtlOutcome where
  | ok (m : List (Int × EpollEvent))
  | err (e : Int)
  | panicked
  deriving DecidableEq, Repr

def epoll_ctl_op (m : List (Int × EpollEvent)) (op fd : Int) (event : EpollEvent) :
    CtlOutcome :=
  if op = EPOLL_CTL_DEL then
    if alContains m fd then .ok (alRemove m fd) else .panicked
  else if op = EPOLL_CTL_MOD then
    if ¬ alContains m fd then .err (syscall_error ENOENT)
    else .ok (alInsert m fd ⟨event.events, event.fd⟩)
  else if op = EPOLL_CTL_ADD then
    if alContains m fd then .err (syscall_error EEXIST)
    else .ok (alInsert m fd ⟨event.events, event.fd⟩)
  else .err (syscall_error EINVAL)

/-! ## accept_syscall fd-allocation prelude (net_calls.rs lines 1559-1614)

Embeds `accept_syscall` around its fd-allocation step.  The fd-table slot
contents and the result of `get_next_fd` (defined in `cage.rs`, outside
the excerpt; only its sign is inspected here) are parameters; the
per-domain continuations `accept_unix` / `accept_inet` are abstracted as
function parameters since the claim settled on this embedding concerns
the allocation-failure path, on which they are never reached.
-/

inductive FdEntry where
  | sock (domain : Int)
  | epoll
  | other
  deriving DecidableEq, Repr

def accept_syscall (entry : Option FdEntry) (fd : Int) (newfd : Int)
    (acceptUnix acceptInet : Int → Int) : Int :=
  match entry with
  | some e =>
    if newfd < 0 then fd
    else
      match e with
      | .sock domain =>
        if domain = AF_UNIX then acceptUnix newfd
        else if domain = AF_INET ∨ domain = AF_INET6 then acceptInet newfd
        else syscall_error EINVAL
      | _ => syscall_error ENOTSOCK
  | none => syscall_error EBADF

/-! ## Memory-mapped append log (file.rs lines 272-416)

`EmulatedFileMap` carries the mapped data region (`map`), the 8-byte
header region (`countmap`), the running byte count and the backing-file
size.  The `mmap`/`mremap` plumbing moves bytes but the observable state
is exactly these fields.
-/

def MAP_1MB : Nat := 2 ^ 20
def COUNTMAPSIZE : Nat := 8

structure EmulatedFileMap where
  mapsize : Nat
  count : Nat
  map : List Nat
  countmap : List Nat
  filesize : Nat
  deriving DecidableEq, Repr

/-- `usize::to_be_bytes`: the eight big-endian bytes of the count. -/
def usize_to_be_bytes (n : Nat) : List Nat :=
  [n / 2 ^ 56 % 256, n / 2 ^ 48 % 256, n / 2 ^ 40 % 256, n / 2 ^ 32 % 256,
   n / 2 ^ 24 % 256, n / 2 ^ 16 % 256, n / 2 ^ 8 % 256, n % 256]

/-- Mirrors `EmulatedFileMap::new` (via `mapfilenew`): the file is sized to
1 MiB, the first 8 bytes become the count header, the rest the data
region; a fresh file reads as zeros. -/
def mapfilenew : EmulatedFileMap :=
  { mapsize := MAP_1MB - COUNTMAPSIZE
    count := 0
    map := List.replicate (MAP_1MB - COUNTMAPSIZE) 0
    countmap := List.replicate COUNTMAPSIZE 0
    filesize := MAP_1MB }

/-- Mirrors `EmulatedFileMap::extend_map` (file.rs lines 354-396): grow the
backing file and the data region by another 1 MiB and remap; `mremap`
preserves the existing contents and the file extension reads as zeros. -/
def extend_map (m : EmulatedFileMap) : EmulatedFileMap :=
  { m with
    mapsize := m.mapsize + MAP_1MB
    map := m.map ++ List.replicate MAP_1MB 0
    filesize := COUNTMAPSIZE + (m.mapsize + MAP_1MB) }

/-- Mirrors `EmulatedFileMap::write_to_map` (file.rs lines 331-352): extend
once if the write would pass the current region, copy the bytes at offset
`count`, bump `count`, rewrite the header.  The slice expression
`map[count..count + writelen]` panics (`none`) when the write does not fit
even after the single extension. -/
def write_to_map (m : EmulatedFileMap) (bytes_to_write : List Nat) :
    Option EmulatedFileMap :=
  let writelen := bytes_to_write.length
  let m1 := if writelen + m.count > m.mapsize then extend_map m else m
  if m1.count + writelen ≤ m1.mapsize then
    some
      { m1 with
        map := m1.map.take m1.count ++ bytes_to_write ++
               m1.map.drop (m1.count + writelen)
        count := m1.count + writelen
        countmap := usize_to_be_bytes (m1.count + writelen) }
  else none

/-- Well-formedness maintained by the append log: the data region backs
`mapsize` bytes, the valid prefix fits, the file covers header plus
region, and the header holds the big-endian count. -/
def wfMap (m : EmulatedFileMap) : Prop :=
  m.map.length = m.mapsize ∧ m.count ≤ m.mapsize ∧
  m.filesize = COUNTMAPSIZE + m.mapsize ∧
  m.countmap = usize_to_be_bytes m.count

/-! ## recv paths (net_calls.rs lines 1026-1252)

`recv_common_inner` dispatches on the handle's protocol: the TCP arm
receives the caller's `flags`, the UDP arm does not (the source calls
`recv_common_inner_udp` without passing `flags`, so `MSG_PEEK` never
reaches the UDP path).

The kernel socket is modelled from the spec: for a connected TCP socket,
`interface::Socket::recvfrom` (comm.rs, outside the excerpt) delivers up
to `buflen` of the bytes available on the stream and consumes them, or
fails with `EAGAIN` when none are available; for a UDP socket it pops the
first queued datagram, delivers up to `buflen` of its bytes and discards
the rest of that datagram, or fails with `EAGAIN` on an empty queue.  On
`EAGAIN` with a blocking fd the source re-issues the same read after a
cancellation check; the embedding reports the `EAGAIN` surface of the
non-blocking fd case.
-/

structure TcpRecvHandle where
  state : ConnState
  last_peek : List Nat
  stream : List Nat
  deriving DecidableEq, Repr

/-- Mirrors `recv_common_inner_tcp` (net_calls.rs lines 1026-1188) for an
inet TCP handle: state check, peek-buffer fill and optional drain, kernel
read, and the `MSG_PEEK` extension of `last_peek` with the bytes the
kernel call consumed.  Returns `(retcode, handle, bytes delivered to the
caller's buffer)`. -/
def recv_common_inner_tcp (h : TcpRecvHandle) (buflen : Nat) (flags : Int) :
    Int × TcpRecvHandle × List Nat :=
  if h.state ≠ ConnState.CONNECTED ∧ h.state ≠ ConnState.CONNRDONLY then
    (syscall_error ENOTCONN, h, [])
  else
    let bytecount := min h.last_peek.length buflen
    let delivered := h.last_peek.take bytecount
    let peek1 :=
      if Int.land flags MSG_PEEK = 0 then h.last_peek.drop bytecount
      else h.last_peek
    let buflenleft := buflen - bytecount
    if h.last_peek.length ≠ 0 ∧ buflenleft = 0 then
      ((bytecount : Int), { h with last_peek := peek1 }, delivered)
    else
      match h.stream with
      | [] =>
        if 0 < bytecount then
          ((bytecount : Int), { h with last_peek := peek1 }, delivered)
        else (syscall_error EAGAIN, { h with last_peek := peek1 }, [])
      | _ :: _ =>
        let retbytes := h.stream.take buflenleft
        let peek2 :=
          if Int.land flags MSG_PEEK ≠ 0 then peek1 ++ retbytes else peek1
        (((bytecount + retbytes.length : Nat) : Int),
         { state := h.state, last_peek := peek2, stream := h.stream.drop buflenleft },
         delivered ++ retbytes)

/-- Mirrors `recv_common_inner_udp` (net_calls.rs lines 1190-1252) for a
bound UDP handle: the function takes no `flags` argument and simply
forwards to the kernel `recvfrom`.  The state is the queue of received
datagrams; the result is `(retcode, queue, bytes delivered)`. -/
def recv_common_inner_udp (queue : List (List Nat)) (buflen : Nat) :
    Int × List (List Nat) × List Nat :=
  match queue with
  | [] => (syscall_error EAGAIN, [], [])
  | datagram :: rest =>
    ((min buflen datagram.length : Nat), rest, datagram.take buflen)

/-! ## bind (net_calls.rs lines 185-297) -/

/-- The Unix variant of `interface::GenSockaddr`: a family tag and a path. -/
structure SockAddrUnix where
  family : Nat
  path : String
  deriving DecidableEq, Repr

/-- `UnixSocketInfo` from `net.rs`; the pipe slots are opaque here (bind
always stores `None` in them). -/
structure UnixSocketInfo where
  mode : Nat
  sendpipe : Option Unit
  receivepipe : Option Unit
  inode : Nat
  deriving DecidableEq, Repr

/-- The fields of `SocketHandle` read or written by `bind_inner_socket`
and `_implicit_bind`. -/
structure SocketHandle where
  domain : Int
  localaddr : Option SockAddrUnix
  unix_info : Option UnixSocketInfo
  deriving DecidableEq, Repr

/-- The `domsock_paths` registry of `NET_METADATA`. -/
structure NetMetadata where
  domsock_paths : List (List String)
  deriving DecidableEq, Repr

/-- The state threaded through bind: the global filesystem metadata, the
global net metadata, and the socket handle. -/
structure BindState where
  fs : FilesystemMetadata
  net : NetMetadata
  handle : SocketHandle
  deriving DecidableEq, Repr

/-- Mirrors `bind_inner_socket_unix` (net_calls.rs lines 224-297).  `cwd`
is the cage's working directory, `time` the timestamp.  The outer `Option`
is the panic monad (`file_name().unwrap()` cannot fail after a
`(None, Some _)` walk; `inodetable.get_mut(&pardirinode).unwrap()` and the
walk itself can panic only on a corrupt table).  Note that the `ENOTDIR`
branch has already advanced `nextinode` ("this may end up skipping an
inode number"). -/
def bind_inner_socket_unix (time : Nat) (cwd : List String) (st : BindState)
    (newsockaddr : SockAddrUnix) : Option (Int × BindState) :=
  let path := newsockaddr.path
  if path.length = 0 then some (syscall_error ENOENT, st)
  else
    let truepath := normpath cwd path
    match metawalkandparent st.fs.inodetable truepath with
    | none => none
    | some (none, none) => some (syscall_error ENOENT, st)
    | some (none, some pardirinode) =>
      let filename := truepath.getLastD sEmpty
      let newinodenum := st.fs.nextinode
      let fs1 := { st.fs with nextinode := st.fs.nextinode + 1 }
      match alLookup fs1.inodetable pardirinode with
      | some (Inode.Dir dir) =>
        let mode := Nat.land (Nat.lor dir.mode S_FILETYPEFLAGS) S_IRWXA
        let effective_mode := Nat.lor S_IFSOCK mode
        let newinode := Inode.Socket
          { size := 0, uid := DEFAULT_UID, gid := DEFAULT_GID
            mode := effective_mode, linkcount := 1, refcount := 1
            atime := time, ctime := time, mtime := time }
        let dir1 :=
          { dir with
            filename_to_inode_dict :=
              alInsert dir.filename_to_inode_dict filename newinodenum
            linkcount := dir.linkcount + 1 }
        let fs2 := { fs1 with
          inodetable := alInsert fs1.inodetable pardirinode (Inode.Dir dir1) }
        let handle1 :=
          { st.handle with
            unix_info := some
              { mode := Nat.lor S_IFSOCK 0o666, sendpipe := none
                receivepipe := none, inode := newinodenum } }
        let net1 := { domsock_paths := setInsert st.net.domsock_paths truepath }
        let fs3 := { fs2 with
          inodetable := alInsert fs2.inodetable newinodenum newinode }
        some (0, { fs := fs3, net := net1, handle := handle1 })
      | some _ => some (syscall_error ENOTDIR, { st with fs := fs1 })
      | none => none
    | some (some _, _) => some (syscall_error EADDRINUSE, st)

/-- Mirrors `bind_inner_socket` (net_calls.rs lines 185-222): family check,
double-bind check, domain dispatch — and then, regardless of the dispatch
result, `sockhandle.localaddr = Some(newsockaddr)`.  The inet arm
(`bind_inner_socket_inet`, which reserves a port and calls the kernel) is
abstracted as the parameter `inetBind`; the `prereserved` flag only feeds
that arm. -/
def bind_inner_socket (time : Nat) (cwd : List String) (st : BindState)
    (localaddr : SockAddrUnix)
    (inetBind : BindState → SockAddrUnix → Int × BindState) :
    Option (Int × BindState) :=
  if (localaddr.family : Int) ≠ st.handle.domain then
    some (syscall_error EINVAL, st)
  else if st.handle.localaddr.isSome then
    some (syscall_error EINVAL, st)
  else if st.handle.domain = AF_UNIX then
    match bind_inner_socket_unix time cwd st localaddr with
    | none => none
    | some (res, st1) =>
      some (res, { st1 with handle := { st1.handle with localaddr := some localaddr } })
  else if st.handle.domain = AF_INET ∨ st.handle.domain = AF_INET6 then
    let r := inetBind st localaddr
    some (r.1, { r.2 with handle := { r.2.handle with localaddr := some localaddr } })
  else
    some (syscall_error EINVAL, st)

/-- Mirrors `_implicit_bind` (net_calls.rs lines 49-76): when the handle
already has a local address the whole bind branch is skipped and 0 is
returned; otherwise the address assignment and bind run (abstracted as
`doBind`). -/
def implicit_bind (st : BindState) (doBind : BindState → Int × BindState) :
    Int × BindState :=
  if st.handle.localaddr.isNone then doBind st else (0, st)

/-! ## Observers and concrete sample values used in statements -/

/-- The `mode` field common to all four inode variants. -/
def inode_mode : Inode → Nat
  | .File g => g.mode
  | .CharDev d => d.mode
  | .Socket s => s.mode
  | .Dir d => d.mode

/-- Whether an inode-table lookup hit a character device. -/
def isCharDevInode : Option Inode → Bool
  | some (.CharDev _) => true
  | _ => false

/-- Whether an inode-table lookup hit a directory. -/
def isDirInode : Option Inode → Bool
  | some (.Dir _) => true
  | _ => false

/-- The invariant claimed for directory entry tables: `"."` maps every
directory to itself. -/
def dir_dot_self_invariant (t : List (Nat × Inode)) : Prop :=
  ∀ n d, alLookup t n = some (Inode.Dir d) →
    alLookup d.filename_to_inode_dict sDot = some n

/-- The `/tmp` directory inode as `format_fs` builds it (timestamp 0). -/
def tmp_dir_after_format : DirectoryInode :=
  { size := 0, uid := DEFAULT_UID, gid := DEFAULT_GID
    mode := Nat.lor S_IFDIR 0o755
    linkcount := 3 + 4, refcount := 0
    atime := 0, ctime := 0, mtime := 0
    filename_to_inode_dict := alInsert (alInsert [] sDotDot 1) sDot 2 }

def demoInode : Inode :=
  Inode.Socket
    { size := 0, uid := DEFAULT_UID, gid := DEFAULT_GID, mode := 0
      linkcount := 1, refcount := 0, atime := 0, ctime := 0, mtime := 0 }

def demoFs : FilesystemMetadata :=
  { nextinode := 8, dev_id := 20, inodetable := [] }

def demoLog : List (Nat × Option Inode) :=
  [(9, some demoInode), (9, none), (3, some demoInode)]

/-- A bind request with a null (empty) path: the `ENOENT` branch of
`bind_inner_socket_unix`. -/
def demoAddr : SockAddrUnix := { family := 1, path := sEmpty }

def demoBindState : BindState :=
  { fs := demoFs
    net := { domsock_paths := [] }
    handle := { domain := 1, localaddr := none, unix_info := none } }

/-- A trivial stand-in for the abstracted inet bind arm. -/
def demoInetBind : BindState → SockAddrUnix → Int × BindState :=
  fun st _ => (0, st)

/-- `demoBindState` after the failed empty-path bind: only `localaddr`
has changed. -/
def demoBoundState : BindState :=
  { fs := demoFs
    net := { domsock_paths := [] }
    handle := { domain := 1, localaddr := some demoAddr, unix_info := none } }

/-! # Theorems -/

/-! ## Association-list map lemmas -/

theorem alLookup_append [DecidableEq α] (m₁ m₂ : List (α × β)) (k : α) :
    alLookup (m₁ ++ m₂) k =
      match alLookup m₁ k with
      | some v => some v
      | none => alLookup m₂ k := by
  induction m₁ with
  | nil => simp [alLookup]
  | cons p rest ih =>
    by_cases h : p.1 = k <;> simp [alLookup, h, ih]

theorem alLookup_alRemove_self [DecidableEq α] (m : List (α × β)) (k : α) :
    alLookup (alRemove m k) k = none := by
  induction m with
  | nil => simp [alRemove, alLookup]
  | cons p rest ih =>
    by_cases h : p.1 = k <;> simp [alRemove, alLookup, h, ih]

theorem alLookup_alRemove_ne [DecidableEq α] (m : List (α × β)) (k k' : α)
    (h : k' ≠ k) : alLookup (alRemove m k) k' = alLookup m k' := by
  have hkk' : ¬ (k = k') := fun hc => h hc.symm
  induction m with
  | nil => simp [alRemove]
  | cons p rest ih =>
    by_cases hp : p.1 = k
    · simp [alRemove, alLookup, hp, hkk', ih]
    · by_cases hp' : p.1 = k' <;> simp [alRemove, alLookup, hp, hp', h, ih]

theorem alLookup_alInsert_self [DecidableEq α] (m : List (α × β)) (k : α) (v : β) :
    alLookup (alInsert m k v) k = some v := by
  rw [alInsert, alLookup_append, alLookup_alRemove_self]
  simp [alLookup]

theorem alLookup_alInsert_ne [DecidableEq α] (m : List (α × β)) (k k' : α) (v : β)
    (h : k' ≠ k) : alLookup (alInsert m k v) k' = alLookup m k' := by
  have hkk' : ¬ (k = k') := fun hc => h hc.symm
  rw [alInsert, alLookup_append, alLookup_alRemove_ne m k k' h]
  cases hm : alLookup m k' with
  | none => simp [alLookup, hkk']
  | some v' => simp

/-! ## Claim C1 -/

/-- Claim C1 (code-bug evidence): after `format_fs` in an empty working
directory, `nextinode` is 8 and the four device paths resolve to
character-device inodes with mode `S_IFCHR|0666`, but resolving `/tmp`
FAILS — `format_fs` never inserts a `"tmp"` entry into the root
directory's map, so `metawalk` finds no inode even though the orphaned
`/tmp` directory inode 7 (mode `S_IFDIR|0755`) sits in the table. -/
theorem format_fs_reserved_tree :
    (format_fs 0).nextinode = 8
  ∧ metawalk (format_fs 0).inodetable [sDev, sNull] = some (some 3)
  ∧ isCharDevInode (alLookup (format_fs 0).inodetable 3) = true
  ∧ (alLookup (format_fs 0).inodetable 3).map inode_mode
      = some (Nat.lor S_IFCHR 0o666)
  ∧ metawalk (format_fs 0).inodetable [sDev, sZero] = some (some 4)
  ∧ (alLookup (format_fs 0).inodetable 4).map inode_mode
      = some (Nat.lor S_IFCHR 0o666)
  ∧ metawalk (format_fs 0).inodetable [sDev, sUrandom] = some (some 5)
  ∧ (alLookup (format_fs 0).inodetable 5).map inode_mode
      = some (Nat.lor S_IFCHR 0o666)
  ∧ metawalk (format_fs 0).inodetable [sDev, sRandom] = some (some 6)
  ∧ (alLookup (format_fs 0).inodetable 6).map inode_mode
      = some (Nat.lor S_IFCHR 0o666)
  ∧ metawalk (format_fs 0).inodetable [sTmp] = some none
  ∧ isDirInode (alLookup (format_fs 0).inodetable 7) = true
  ∧ (alLookup (format_fs 0).inodetable 7).map inode_mode
      = some (Nat.lor S_IFDIR 0o755) := by
  decide

/-! ## Claim C2 -/

/-- Claim C2 (code-bug evidence): the directory `"."`-entry invariant is
violated immediately after `format_fs` — the `/tmp` directory (inode 7)
carries `"." ↦ 2` (copy-pasted from the `/dev` child map) instead of
`"." ↦ 7`. -/
theorem format_fs_tmp_dot_entry :
    alLookup (format_fs 0).inodetable 7 = some (Inode.Dir tmp_dir_after_format)
  ∧ alLookup tmp_dir_after_format.filename_to_inode_dict sDot = some 2
  ∧ ¬ dir_dot_self_invariant (format_fs 0).inodetable := by
  refine ⟨by decide, by decide, ?_⟩
  intro hinv
  have h := hinv 7 tmp_dir_after_format (by decide)
  have h2 : alLookup tmp_dir_after_format.filename_to_inode_dict sDot = some 2 := by
    decide
  rw [h] at h2
  exact absurd (Option.some.inj h2) (by decide)

/-! ## Claim C4 -/

/-- Claim C4 counterexample: the claimed transition table is wrong in two
cells.  `shutdown(SHUT_WR)` on a `CONNWRONLY` socket yields `CONNRDONLY`
(the claim says it stays `CONNWRONLY`), and `shutdown(SHUT_RD)` on a
`CONNRDONLY` socket yields `CONNWRONLY` (the claim says it stays
`CONNRDONLY`): the source's `match how` arms test only for the one state
that maps to `NOTCONNECTED` and send every other state to the
complementary half-open state. -/
theorem shutdown_table_counterexample :
    cleanup_socket_state_change ConnState.CONNWRONLY SHUT_WR
      = .ok ConnState.CONNRDONLY
  ∧ ConnState.CONNRDONLY ≠ ConnState.CONNWRONLY
  ∧ cleanup_socket_state_change ConnState.CONNRDONLY SHUT_RD
      = .ok ConnState.CONNWRONLY
  ∧ ConnState.CONNWRONLY ≠ ConnState.CONNRDONLY := by
  refine ⟨rfl, by decide, rfl, by decide⟩

/-- Claim C4 (amended): the shutdown transition table implemented by
`_cleanup_socket_inner_helper`: from CONNECTED, SHUT_RD yields CONNWRONLY,
SHUT_WR yields CONNRDONLY, SHUT_RDWR yields NOTCONNECTED; from CONNWRONLY,
SHUT_RD yields NOTCONNECTED, SHUT_WR yields CONNRDONLY, SHUT_RDWR yields
NOTCONNECTED; from CONNRDONLY, SHUT_RD yields CONNWRONLY, SHUT_WR yields
NOTCONNECTED, SHUT_RDWR yields NOTCONNECTED. -/
theorem shutdown_transition_table :
    cleanup_socket_state_change ConnState.CONNECTED SHUT_RD
      = .ok ConnState.CONNWRONLY
  ∧ cleanup_socket_state_change ConnState.CONNECTED SHUT_WR
      = .ok ConnState.CONNRDONLY
  ∧ cleanup_socket_state_change ConnState.CONNECTED SHUT_RDWR
      = .ok ConnState.NOTCONNECTED
  ∧ cleanup_socket_state_change ConnState.CONNWRONLY SHUT_RD
      = .ok ConnState.NOTCONNECTED
  ∧ cleanup_socket_state_change ConnState.CONNWRONLY SHUT_WR
      = .ok ConnState.CONNRDONLY
  ∧ cleanup_socket_state_change ConnState.CONNWRONLY SHUT_RDWR
      = .ok ConnState.NOTCONNECTED
  ∧ cleanup_socket_state_change ConnState.CONNRDONLY SHUT_RD
      = .ok ConnState.CONNWRONLY
  ∧ cleanup_socket_state_change ConnState.CONNRDONLY SHUT_WR
      = .ok ConnState.NOTCONNECTED
  ∧ cleanup_socket_state_change ConnState.CONNRDONLY SHUT_RDWR
      = .ok ConnState.NOTCONNECTED := by
  exact ⟨rfl, rfl, rfl, rfl, rfl, rfl, rfl, rfl, rfl⟩

/-! ## Claim C5 -/

/-- Claim C5 counterexample: `socket_syscall` matches the domain against
`PF_INET | PF_UNIX` only, so `AF_INET6` (= 30) falls to the default arm
and fails with `EOPNOTSUPP`, contrary to the claim that AF_INET6 is
accepted; and the type is taken as `socktype & 0x7`, so a socktype of 9
(bit 3 set, which is neither `SOCK_NONBLOCK` nor `SOCK_CLOEXEC`) is
accepted as `SOCK_STREAM` instead of being rejected. -/
theorem socket_syscall_counterexample :
    socket_syscall AF_INET6 SOCK_STREAM 0 = .error (-95)
  ∧ socket_syscall AF_INET 9 0 = .ok (AF_INET, 9, IPPROTO_TCP) := by
  exact ⟨rfl, rfl⟩

/-- Claim C5 (amended): `socket_syscall` succeeds exactly for the domains
`AF_INET` and `AF_UNIX` combined with either (low-3-bits type
`SOCK_STREAM` with protocol 0 or `IPPROTO_TCP`) or (low-3-bits type
`SOCK_DGRAM` with protocol 0 or `IPPROTO_UDP`); the effective type is
`socktype & 0x7` (so `SOCK_NONBLOCK`/`SOCK_CLOEXEC` and any other high
bits are ignored for the decision), and every other combination —
including any `AF_INET6` request — fails with `EOPNOTSUPP`. -/
theorem socket_syscall_characterization (domain socktype protocol : Int) :
    socket_syscall domain socktype protocol =
      if (domain = PF_INET ∨ domain = PF_UNIX)
          ∧ ((Int.land socktype 0x7 = SOCK_STREAM
                ∧ (protocol = 0 ∨ protocol = IPPROTO_TCP))
             ∨ (Int.land socktype 0x7 = SOCK_DGRAM
                ∧ (protocol = 0 ∨ protocol = IPPROTO_UDP)))
      then .ok (domain, socktype,
            if Int.land socktype 0x7 = SOCK_STREAM then IPPROTO_TCP
            else IPPROTO_UDP)
      else .error (syscall_error EOPNOTSUPP) := by
  simp only [socket_syscall, SOCK_STREAM, SOCK_DGRAM, IPPROTO_TCP, IPPROTO_UDP,
    PF_INET, PF_UNIX]
  by_cases h1 : Int.land socktype 7 = 1
  · by_cases hp0 : protocol = 0
    · simp [h1, hp0]
    · by_cases hp6 : protocol = 6
      · simp [h1, hp0, hp6]
      · simp [h1, hp0, hp6]
  · by_cases h2 : Int.land socktype 7 = 2
    · by_cases hp0 : protocol = 0
      · simp [h1, h2, hp0]
      · by_cases hp17 : protocol = 17
        · simp [h1, h2, hp0, hp17]
        · simp [h1, h2, hp0, hp17]
    · simp [h1, h2]

/-! ## Claim C7 -/

/-- Claim C7 counterexample: `EPOLL_CTL_DEL` on an fd that was never
registered panics — the source unwraps the result of
`registered_fds.remove(&fd)`, which is `None` for an unregistered fd —
instead of removing unconditionally without aborting. -/
theorem epoll_ctl_del_unregistered_panics :
    epoll_ctl_op [] EPOLL_CTL_DEL 5 { events := 0, fd := 5 }
      = CtlOutcome.panicked := by
  rfl

/-- Claim C7 (amended): `epoll_ctl` rejects `EPOLL_CTL_ADD` for an already
registered fd with `EEXIST` and `EPOLL_CTL_MOD` for an unregistered fd
with `ENOENT`; `EPOLL_CTL_DEL` removes the registration when the fd is
registered (leaving every other registration untouched), but on an fd
that was never registered it panics, because the removal result is
unwrapped.  `EPOLL_CTL_ADD` on a fresh fd registers exactly that fd. -/
theorem epoll_ctl_table (m : List (Int × EpollEvent)) (fd : Int)
    (event : EpollEvent) :
    (alContains m fd = true →
      epoll_ctl_op m EPOLL_CTL_ADD fd event = .err (-EEXIST))
  ∧ (alContains m fd = false →
      epoll_ctl_op m EPOLL_CTL_MOD fd event = .err (-ENOENT))
  ∧ (alContains m fd = false →
      epoll_ctl_op m EPOLL_CTL_ADD fd event
        = .ok (alInsert m fd ⟨event.events, event.fd⟩)
      ∧ alLookup (alInsert m fd ⟨event.events, event.fd⟩) fd
          = some ⟨event.events, event.fd⟩
      ∧ ∀ k, k ≠ fd →
          alLookup (alInsert m fd ⟨event.events, event.fd⟩) k = alLookup m k)
  ∧ (alContains m fd = true →
      epoll_ctl_op m EPOLL_CTL_DEL fd event = .ok (alRemove m fd)
      ∧ alLookup (alRemove m fd) fd = none
      ∧ ∀ k, k ≠ fd → alLookup (alRemove m fd) k = alLookup m k)
  ∧ (alContains m fd = false →
      epoll_ctl_op m EPOLL_CTL_DEL fd event = .panicked) := by
  refine ⟨?_, ?_, ?_, ?_, ?_⟩
  · intro hc
    simp [epoll_ctl_op, EPOLL_CTL_ADD, EPOLL_CTL_DEL, EPOLL_CTL_MOD, hc,
      syscall_error, EEXIST]
  · intro hc
    simp [epoll_ctl_op, EPOLL_CTL_ADD, EPOLL_CTL_DEL, EPOLL_CTL_MOD, hc,
      syscall_error, ENOENT]
  · intro hc
    refine ⟨?_, alLookup_alInsert_self m fd _, fun k hk =>
      alLookup_alInsert_ne m fd k _ hk⟩
    simp [epoll_ctl_op, EPOLL_CTL_ADD, EPOLL_CTL_DEL, EPOLL_CTL_MOD, hc]
  · intro hc
    refine ⟨?_, alLookup_alRemove_self m fd, fun k hk =>
      alLookup_alRemove_ne m fd k hk⟩
    simp [epoll_ctl_op, EPOLL_CTL_DEL, hc]
  · intro hc
    simp [epoll_ctl_op, EPOLL_CTL_DEL, hc]

/-- Witness for the amended C7 theorem at a one-entry registration map. -/
theorem epoll_ctl_table_witness :
    epoll_ctl_op [(4, { events := 1, fd := 4 })] EPOLL_CTL_ADD 4
      { events := 1, fd := 4 } = .err (-17)
  ∧ epoll_ctl_op [(4, { events := 1, fd := 4 })] EPOLL_CTL_MOD 9
      { events := 1, fd := 9 } = .err (-2)
  ∧ epoll_ctl_op [(4, { events := 1, fd := 4 })] EPOLL_CTL_DEL 9
      { events := 1, fd := 9 } = .panicked :=
  ⟨(epoll_ctl_table [(4, { events := 1, fd := 4 })] 4
      { events := 1, fd := 4 }).1 (by decide),
   (epoll_ctl_table [(4, { events := 1, fd := 4 })] 9
      { events := 1, fd := 9 }).2.1 (by decide),
   (epoll_ctl_table [(4, { events := 1, fd := 4 })] 9
      { events := 1, fd := 9 }).2.2.2.2 (by decide)⟩

/-! ## Claim C10 -/

/-- Claim C10: when `accept_syscall` runs on a populated fd slot but
`get_next_fd` reports failure (a negative value), the syscall returns the
listening fd argument itself — a non-negative number when the argument
was — rather than a negative errno. -/
theorem accept_syscall_fdtable_full (e : FdEntry) (fd newfd : Int)
    (acceptUnix acceptInet : Int → Int)
    (hfd : 0 ≤ fd) (halloc : newfd < 0) :
    accept_syscall (some e) fd newfd acceptUnix acceptInet = fd
  ∧ 0 ≤ accept_syscall (some e) fd newfd acceptUnix acceptInet := by
  have h : accept_syscall (some e) fd newfd acceptUnix acceptInet = fd := by
    simp [accept_syscall, halloc]
  exact ⟨h, by rw [h]; exact hfd⟩

/-! ## Claim C6 -/

theorem replay_fold_lookup (logvec : List (Nat × Option Inode)) :
    ∀ (acc : Nat × List (Nat × Inode)) (n : Nat),
    alLookup (logvec.foldl replay_step acc).2 n =
      logvec.foldl (fun cur sp => if sp.1 = n then sp.2 else cur)
        (alLookup acc.2 n) := by
  induction logvec with
  | nil => intro acc n; rfl
  | cons sp rest ih =>
    intro acc n
    rw [List.foldl_cons, List.foldl_cons, ih]
    congr 1
    cases hsp : sp.2 with
    | some i =>
      by_cases h : sp.1 = n
      · subst h
        simp [replay_step, hsp, alLookup_alInsert_self]
      · simp [replay_step, hsp, h,
          alLookup_alInsert_ne acc.2 sp.1 n i (fun hc => h hc.symm)]
    | none =>
      by_cases h : sp.1 = n
      · subst h
        simp [replay_step, hsp, alLookup_alRemove_self]
      · simp [replay_step, hsp, h,
          alLookup_alRemove_ne acc.2 sp.1 n (fun hc => h hc.symm)]

theorem replay_fold_max (logvec : List (Nat × Option Inode)) :
    ∀ acc : Nat × List (Nat × Inode),
    (logvec.foldl replay_step acc).1 = logvec.foldl replay_max_step acc.1 := by
  induction logvec with
  | nil => intro acc; rfl
  | cons sp rest ih =>
    intro acc
    rw [List.foldl_cons, List.foldl_cons, ih]
    congr 1
    cases hsp : sp.2 <;> simp [replay_step, replay_max_step, hsp]

theorem replay_fold_max_init_le (logvec : List (Nat × Option Inode)) :
    ∀ m : Nat, m ≤ logvec.foldl replay_max_step m := by
  induction logvec with
  | nil => intro m; exact Nat.le_refl m
  | cons sp rest ih =>
    intro m
    rw [List.foldl_cons]
    refine Nat.le_trans ?_ (ih (replay_max_step m sp))
    cases hsp : sp.2 <;> simp [replay_max_step, hsp, Nat.le_max_left]

theorem replay_fold_max_mem (logvec : List (Nat × Option Inode)) :
    ∀ (m n : Nat) (i : Inode), (n, some i) ∈ logvec →
      n ≤ logvec.foldl replay_max_step m := by
  induction logvec with
  | nil => intro m n i h; exact absurd h (List.not_mem_nil _)
  | cons sp rest ih =>
    intro m n i h
    rw [List.foldl_cons]
    rcases List.mem_cons.mp h with heq | hmem
    · refine Nat.le_trans ?_ (replay_fold_max_init_le rest (replay_max_step m sp))
      rw [← heq]
      simp [replay_max_step, Nat.le_max_right]
    · exact ih (replay_max_step m sp) n i hmem

/-- Claim C6: `load_fs` journal replay applies the records in order — the
per-key result of the replayed table is the last record for that key
(`Some` inserts or replaces, `None` deletes), falling back to the
snapshot's binding — and afterwards stores `nextinode` as one more than
the maximum of the snapshot's `nextinode` and every inode number carried
by a `Some` record, so `nextinode` ends strictly greater than every inode
number ever allocated (those below the snapshot counter and those named
by replayed insertions). -/
theorem load_fs_replay_spec (st : FilesystemMetadata)
    (logvec : List (Nat × Option Inode)) (n : Nat) :
    alLookup (load_fs_replay st logvec).inodetable n =
      logvec.foldl (fun cur sp => if sp.1 = n then sp.2 else cur)
        (alLookup st.inodetable n)
  ∧ (load_fs_replay st logvec).nextinode =
      logvec.foldl replay_max_step st.nextinode + 1
  ∧ ((n < st.nextinode ∨ ∃ i, (n, some i) ∈ logvec) →
      n < (load_fs_replay st logvec).nextinode) := by
  refine ⟨?_, ?_, ?_⟩
  · simp only [load_fs_replay]
    exact replay_fold_lookup logvec (st.nextinode, st.inodetable) n
  · simp only [load_fs_replay]
    rw [replay_fold_max logvec (st.nextinode, st.inodetable)]
  · intro hcase
    have hmax : (load_fs_replay st logvec).nextinode =
        logvec.foldl replay_max_step st.nextinode + 1 := by
      simp only [load_fs_replay]
      rw [replay_fold_max logvec (st.nextinode, st.inodetable)]
    rw [hmax]
    rcases hcase with hlt | ⟨i, hmem⟩
    · have := replay_fold_max_init_le logvec st.nextinode
      omega
    · have := replay_fold_max_mem logvec st.nextinode n i hmem
      omega

/-- Witness for C6 at a concrete snapshot and journal: record 9 is
inserted then deleted, record 3 inserted; the replayed table drops 9,
and `nextinode` becomes 10, strictly above the replayed inode 9. -/
theorem load_fs_replay_spec_witness :
    alLookup (load_fs_replay demoFs demoLog).inodetable 9 = none
  ∧ (load_fs_replay demoFs demoLog).nextinode = 10
  ∧ 9 < (load_fs_replay demoFs demoLog).nextinode :=
  ⟨(load_fs_replay_spec demoFs demoLog 9).1.trans (by decide),
   ((load_fs_replay_spec demoFs demoLog 9).2.1).trans (by decide),
   (load_fs_replay_spec demoFs demoLog 9).2.2
     (Or.inr ⟨demoInode, by decide⟩)⟩

/-! ## Claim C8 -/

/-- Copying into the data region at offset `count` with the remainder
preserved: the shape shared by the extended and non-extended branches of
`write_to_map`. -/
theorem write_copy_spec (mp : List Nat) (cnt : Nat) (bytes : List Nat)
    (hfit : cnt + bytes.length ≤ mp.length) :
    (mp.take cnt ++ bytes ++ mp.drop (cnt + bytes.length)).take cnt = mp.take cnt
  ∧ ((mp.take cnt ++ bytes ++ mp.drop (cnt + bytes.length)).drop cnt).take
      bytes.length = bytes
  ∧ (mp.take cnt ++ bytes ++ mp.drop (cnt + bytes.length)).length = mp.length := by
  have htklen : (mp.take cnt).length = cnt := by
    rw [List.length_take]
    omega
  have hdrop : (mp.take cnt).drop cnt = [] :=
    List.drop_eq_nil_of_le (by rw [htklen])
  refine ⟨?_, ?_, ?_⟩
  · rw [List.append_assoc, List.take_append_eq_append_take, htklen,
      Nat.sub_self, List.take_zero, List.append_nil, List.take_take,
      Nat.min_self]
  · rw [List.append_assoc, List.drop_append_eq_append_drop, htklen,
      hdrop, Nat.sub_self, List.drop_zero, List.nil_append,
      List.take_append_eq_append_take, Nat.sub_self, List.take_zero,
      List.append_nil, List.take_length]
  · simp only [List.length_append, List.length_take, List.length_drop, htklen]
    omega

/-- Single `write_to_map` call on a well-formed log state, provided the
write fits after at most one 1 MiB extension (larger writes panic, see
the counterexample). -/
theorem write_to_map_step (m : EmulatedFileMap) (bytes : List Nat)
    (hwf : wfMap m) (hfit : m.count + bytes.length ≤ m.mapsize + MAP_1MB) :
    ∃ m', write_to_map m bytes = some m'
      ∧ m'.mapsize = (if bytes.length + m.count > m.mapsize
                      then m.mapsize + MAP_1MB else m.mapsize)
      ∧ m'.filesize = COUNTMAPSIZE + m'.mapsize
      ∧ m'.count = m.count + bytes.length
      ∧ m'.countmap = usize_to_be_bytes (m.count + bytes.length)
      ∧ m'.map.take m.count = m.map.take m.count
      ∧ (m'.map.drop m.count).take bytes.length = bytes
      ∧ wfMap m' := by
  obtain ⟨hlen, hcount, hfile, hcm⟩ := hwf
  by_cases hext : bytes.length + m.count > m.mapsize
  · have h1 : (extend_map m).count + bytes.length ≤ (extend_map m).mapsize := by
      simp only [extend_map]
      omega
    have hlen1 : (extend_map m).map.length = (extend_map m).mapsize := by
      simp only [extend_map, List.length_append, List.length_replicate]
      omega
    have hcopy := write_copy_spec (extend_map m).map m.count bytes
      (by rw [hlen1]; simpa [extend_map] using h1)
    have hpre : (extend_map m).map.take m.count = m.map.take m.count := by
      simp only [extend_map]
      rw [List.take_append_eq_append_take]
      have h0 : m.count - m.map.length = 0 := by omega
      simp [h0]
    have hw : write_to_map m bytes = some
        { mapsize := (extend_map m).mapsize
          count := (extend_map m).count + bytes.length
          map := (extend_map m).map.take (extend_map m).count ++ bytes ++
                 (extend_map m).map.drop ((extend_map m).count + bytes.length)
          countmap := usize_to_be_bytes ((extend_map m).count + bytes.length)
          filesize := (extend_map m).filesize } := by
      simp only [write_to_map]
      rw [if_pos hext, if_pos h1]
    refine ⟨_, hw, ?_, rfl, rfl, rfl, hcopy.1.trans hpre, hcopy.2.1, ?_⟩
    · rw [if_pos hext]
      rfl
    · exact ⟨hcopy.2.2.trans hlen1,
        show m.count + bytes.length ≤ m.mapsize + MAP_1MB by omega, rfl, rfl⟩
  · have h1 : m.count + bytes.length ≤ m.mapsize := by omega
    have hcopy := write_copy_spec m.map m.count bytes (by rw [hlen]; exact h1)
    have hw : write_to_map m bytes = some
        { mapsize := m.mapsize
          count := m.count + bytes.length
          map := m.map.take m.count ++ bytes ++
                 m.map.drop (m.count + bytes.length)
          countmap := usize_to_be_bytes (m.count + bytes.length)
          filesize := m.filesize } := by
      simp only [write_to_map]
      rw [if_neg hext, if_pos h1]
    refine ⟨_, hw, ?_, hfile, rfl, rfl, hcopy.1, hcopy.2.1, ?_⟩
    · rw [if_neg hext]
    · exact ⟨hcopy.2.2.trans hlen,
        show m.count + bytes.length ≤ m.mapsize by omega, hfile, rfl⟩

/-- Folding a list of in-bound writes from any well-formed state: the
count accumulates the total length, the header tracks the count, and the
valid prefix of the data region accumulates the concatenated bytes. -/
theorem write_fold_aux (writes : List (List Nat)) :
    ∀ m : EmulatedFileMap, wfMap m → (∀ b ∈ writes, b.length ≤ MAP_1MB) →
    ∃ m', List.foldlM write_to_map m writes = some m'
      ∧ m'.count = m.count + (writes.map List.length).sum
      ∧ m'.countmap = usize_to_be_bytes m'.count
      ∧ m'.map.take m'.count = m.map.take m.count ++ writes.flatten
      ∧ wfMap m' := by
  induction writes with
  | nil =>
    intro m hwf _
    exact ⟨m, rfl, by simp, hwf.2.2.2, by simp, hwf⟩
  | cons b rest ih =>
    intro m hwf hbound
    have hb : b.length ≤ MAP_1MB := hbound b (List.mem_cons_self b rest)
    have hfit : m.count + b.length ≤ m.mapsize + MAP_1MB := by
      have := hwf.2.1
      omega
    obtain ⟨m1, hw, _, _, hcnt, hcm, hpre, hbytes, hwf1⟩ :=
      write_to_map_step m b hwf hfit
    obtain ⟨m', hfold, hcnt', hcm', htake', hwf'⟩ := ih m1 hwf1
      (fun x hx => hbound x (List.mem_cons_of_mem b hx))
    refine ⟨m', ?_, ?_, hcm', ?_, hwf'⟩
    · simp only [List.foldlM_cons, hw, Option.bind_eq_bind, Option.some_bind]
      exact hfold
    · rw [hcnt', hcnt, List.map_cons, List.sum_cons]
      omega
    · have hm1take : m1.map.take m1.count = m.map.take m.count ++ b := by
        rw [hcnt, List.take_add, hpre, hbytes]
      rw [htake', hm1take, List.append_assoc, List.flatten_cons]

/-- Claim C8 counterexample: a single write longer than the free space
plus 1 MiB panics instead of appending — `write_to_map` extends at most
once, and the subsequent slice `map[count..count+writelen]` indexes out
of bounds.  Here: a fresh log (region 1 MiB − 8 B, count 0) written with
2 MiB of bytes. -/
theorem write_to_map_oversized_write_panics :
    write_to_map mapfilenew (List.replicate (2 * MAP_1MB) 0) = none := by
  have hlen : (List.replicate (2 * MAP_1MB) 0).length = 2 * MAP_1MB :=
    List.length_replicate _ _
  have hext : (List.replicate (2 * MAP_1MB) 0).length + mapfilenew.count >
      mapfilenew.mapsize := by
    rw [hlen]
    show 2 * MAP_1MB + 0 > MAP_1MB - COUNTMAPSIZE
    norm_num [MAP_1MB, COUNTMAPSIZE]
  have hnofit : ¬ ((extend_map mapfilenew).count +
      (List.replicate (2 * MAP_1MB) 0).length ≤ (extend_map mapfilenew).mapsize) := by
    rw [hlen]
    show ¬ (0 + 2 * MAP_1MB ≤ MAP_1MB - COUNTMAPSIZE + MAP_1MB)
    norm_num [MAP_1MB, COUNTMAPSIZE]
  simp only [write_to_map]
  rw [if_pos hext, if_neg hnofit]

/-- The fresh append log is well formed. -/
theorem wf_mapfilenew : wfMap mapfilenew := by
  refine ⟨?_, ?_, ?_, ?_⟩
  · simp [mapfilenew]
  · simp [mapfilenew]
  · norm_num [mapfilenew, MAP_1MB, COUNTMAPSIZE]
  · decide

/-- Claim C8 (amended): for every write that fits after at most one 1 MiB
extension (in particular every write of at most 1 MiB): if
`count + len` exceeds the data-region size the backing file and region
grow by exactly 1 MiB, the bytes are copied at offset `count`, `count`
increases by `len`, and the 8-byte big-endian header is rewritten to the
new count — so after every such write the header equals the total number
of bytes ever appended, and the region's valid prefix is the
concatenation of all appended byte strings. -/
theorem write_to_map_spec :
    (∀ (m : EmulatedFileMap) (bytes : List Nat), wfMap m →
      m.count + bytes.length ≤ m.mapsize + MAP_1MB →
      ∃ m', write_to_map m bytes = some m'
        ∧ m'.mapsize = (if bytes.length + m.count > m.mapsize
                        then m.mapsize + MAP_1MB else m.mapsize)
        ∧ m'.filesize = COUNTMAPSIZE + m'.mapsize
        ∧ m'.count = m.count + bytes.length
        ∧ m'.countmap = usize_to_be_bytes (m.count + bytes.length)
        ∧ m'.map.take m.count = m.map.take m.count
        ∧ (m'.map.drop m.count).take bytes.length = bytes
        ∧ wfMap m')
  ∧ (∀ writes : List (List Nat), (∀ b ∈ writes, b.length ≤ MAP_1MB) →
      ∃ m', List.foldlM write_to_map mapfilenew writes = some m'
        ∧ m'.count = (writes.map List.length).sum
        ∧ m'.countmap = usize_to_be_bytes m'.count
        ∧ m'.map.take m'.count = writes.flatten) := by
  constructor
  · exact write_to_map_step
  · intro writes hbound
    obtain ⟨m', h1, h2, h3, h4, _⟩ :=
      write_fold_aux writes mapfilenew wf_mapfilenew hbound
    refine ⟨m', h1, by simpa [mapfilenew] using h2, h3, ?_⟩
    rw [h4]
    simp [mapfilenew]

/-- Witness for the amended C8 theorem: a 3-byte write on a fresh log,
and a two-record journal whose replayed prefix is the concatenation. -/
theorem write_to_map_spec_witness :
    (∃ m', write_to_map mapfilenew [7, 8, 9] = some m'
      ∧ m'.count = 3 ∧ m'.countmap = usize_to_be_bytes 3)
  ∧ (∃ m', List.foldlM write_to_map mapfilenew [[7, 8], [9]] = some m'
      ∧ m'.count = 3 ∧ m'.map.take m'.count = [7, 8, 9]) := by
  constructor
  · obtain ⟨m', h1, _, _, h4, h5, _⟩ := write_to_map_spec.1 mapfilenew [7, 8, 9]
      wf_mapfilenew (by norm_num [mapfilenew, MAP_1MB, COUNTMAPSIZE])
    exact ⟨m', h1, by simpa [mapfilenew] using h4, by simpa [mapfilenew] using h5⟩
  · obtain ⟨m', h1, h2, _, h4⟩ := write_to_map_spec.2 [[7, 8], [9]]
      (by
        intro b hb
        simp only [List.mem_cons, List.not_mem_nil, or_false] at hb
        rcases hb with rfl | rfl <;> norm_num [MAP_1MB])
    refine ⟨m', h1, by simpa using h2, by rw [h4]; rfl⟩

/-! ## Claim C3 -/

/-- Claim C3 counterexample: the UDP receive path does not implement
`MSG_PEEK` at all — `recv_common_inner` calls `recv_common_inner_udp`
without passing `flags` (the function has no flags parameter), so a
"peek" of 4 bytes from a queued 8-byte datagram consumes the whole
datagram: the queue is left empty, the caller gets the 4-byte prefix,
and the follow-up 8-byte receive finds nothing (`EAGAIN`) instead of
the claimed 8 bytes. -/
theorem recv_udp_msg_peek_consumes :
    (recv_common_inner_udp [[1, 2, 3, 4, 5, 6, 7, 8]] 4).1 = 4
  ∧ (recv_common_inner_udp [[1, 2, 3, 4, 5, 6, 7, 8]] 4).2.2 = [1, 2, 3, 4]
  ∧ (recv_common_inner_udp [[1, 2, 3, 4, 5, 6, 7, 8]] 4).2.1 = []
  ∧ (recv_common_inner_udp
      (recv_common_inner_udp [[1, 2, 3, 4, 5, 6, 7, 8]] 4).2.1 8).1 = -11 :=
  ⟨rfl, rfl, rfl, rfl⟩

/-- Claim C3 (amended): the peek-and-redeliver behaviour holds on the TCP
receive path, which is where the source implements it.  For a connected
TCP socket with 8 bytes available: `recv(buf[4], MSG_PEEK)` returns 4 and
parks those bytes in `last_peek` (the kernel consumed them, the peek
cache retains them); the next `recv(buf[8], 0)` returns 8 bytes — the
peeked prefix followed by the remaining 4 — and empties the peek cache.
On the UDP path `MSG_PEEK` is dropped and the datagram is consumed (see
the counterexample). -/
theorem recv_tcp_peek_semantics (b0 b1 b2 b3 b4 b5 b6 b7 : Nat) :
    (recv_common_inner_tcp
        { state := ConnState.CONNECTED, last_peek := []
          stream := [b0, b1, b2, b3, b4, b5, b6, b7] } 4 MSG_PEEK).1 = 4
  ∧ (recv_common_inner_tcp
        { state := ConnState.CONNECTED, last_peek := []
          stream := [b0, b1, b2, b3, b4, b5, b6, b7] } 4 MSG_PEEK).2.2
      = [b0, b1, b2, b3]
  ∧ (recv_common_inner_tcp
        { state := ConnState.CONNECTED, last_peek := []
          stream := [b0, b1, b2, b3, b4, b5, b6, b7] } 4 MSG_PEEK).2.1
      = { state := ConnState.CONNECTED, last_peek := [b0, b1, b2, b3]
          stream := [b4, b5, b6, b7] }
  ∧ (recv_common_inner_tcp
        { state := ConnState.CONNECTED, last_peek := [b0, b1, b2, b3]
          stream := [b4, b5, b6, b7] } 8 0).1 = 8
  ∧ (recv_common_inner_tcp
        { state := ConnState.CONNECTED, last_peek := [b0, b1, b2, b3]
          stream := [b4, b5, b6, b7] } 8 0).2.2
      = [b0, b1, b2, b3] ++ [b4, b5, b6, b7]
  ∧ (recv_common_inner_tcp
        { state := ConnState.CONNECTED, last_peek := [b0, b1, b2, b3]
          stream := [b4, b5, b6, b7] } 8 0).2.2
      = [b0, b1, b2, b3, b4, b5, b6, b7]
  ∧ (recv_common_inner_tcp
        { state := ConnState.CONNECTED, last_peek := [b0, b1, b2, b3]
          stream := [b4, b5, b6, b7] } 8 0).2.1
      = { state := ConnState.CONNECTED, last_peek := [], stream := [] } :=
  ⟨rfl, rfl, rfl, rfl, rfl, rfl, rfl⟩

/-! ## Claim C9 -/

theorem bind_unix_result_cases (time : Nat) (cwd : List String) (st : BindState)
    (addr : SockAddrUnix) (r : Int) (st1 : BindState)
    (h : bind_inner_socket_unix time cwd st addr = some (r, st1)) :
    r = 0 ∨ r = -ENOENT ∨ r = -ENOTDIR ∨ r = -EADDRINUSE := by
  simp only [bind_inner_socket_unix, syscall_error, ENOENT, ENOTDIR,
    EADDRINUSE] at h ⊢
  split at h <;>
    first
      | exact Option.noConfusion h
      | (simp only [Option.some.injEq, Prod.mk.injEq] at h; omega)
      | (split at h <;>
          first
            | exact Option.noConfusion h
            | (simp only [Option.some.injEq, Prod.mk.injEq] at h; omega)
            | (split at h <;>
                first
                  | exact Option.noConfusion h
                  | (simp only [Option.some.injEq, Prod.mk.injEq] at h; omega)))

/-- Claim C9: when a Unix-domain bind fails past the family and
double-bind checks (with `ENOENT`, `ENOTDIR` or `EADDRINUSE`),
`bind_inner_socket` still stores the requested address in the handle's
`localaddr`; consequently any later bind on the same handle fails with
`EINVAL` and `_implicit_bind` is skipped, as if the failed bind had
succeeded. -/
theorem bind_failure_sets_localaddr (time : Nat) (cwd : List String)
    (st : BindState) (localaddr : SockAddrUnix)
    (inetBind : BindState → SockAddrUnix → Int × BindState)
    (hdom : st.handle.domain = AF_UNIX)
    (hfam : (localaddr.family : Int) = st.handle.domain)
    (hnone : st.handle.localaddr = none)
    (res : Int) (st' : BindState)
    (hrun : bind_inner_socket time cwd st localaddr inetBind = some (res, st'))
    (hfail : res < 0) :
    (res = -ENOENT ∨ res = -ENOTDIR ∨ res = -EADDRINUSE)
  ∧ st'.handle.localaddr = some localaddr
  ∧ (∀ (time2 : Nat) (cwd2 : List String) (addr2 : SockAddrUnix)
      (inetBind2 : BindState → SockAddrUnix → Int × BindState),
      bind_inner_socket time2 cwd2 st' addr2 inetBind2
        = some (syscall_error EINVAL, st'))
  ∧ (∀ doBind : BindState → Int × BindState,
      implicit_bind st' doBind = (0, st')) := by
  rw [bind_inner_socket, if_neg (not_not_intro hfam), if_neg (by rw [hnone]; simp),
    if_pos hdom] at hrun
  cases hbu : bind_inner_socket_unix time cwd st localaddr with
  | none =>
    rw [hbu] at hrun
    exact Option.noConfusion hrun
  | some p =>
    obtain ⟨r, st1⟩ := p
    rw [hbu] at hrun
    simp only [Option.some.injEq, Prod.mk.injEq] at hrun
    obtain ⟨hres, hst'⟩ := hrun
    have hsome : st'.handle.localaddr = some localaddr := by
      rw [← hst']
    refine ⟨?_, hsome, ?_, ?_⟩
    · have hcases := bind_unix_result_cases time cwd st localaddr r st1 hbu
      simp only [ENOENT, ENOTDIR, EADDRINUSE] at hcases ⊢
      omega
    · intro time2 cwd2 addr2 inetBind2
      rw [bind_inner_socket]
      by_cases hf2 : (addr2.family : Int) ≠ st'.handle.domain
      · rw [if_pos hf2]
      · rw [if_neg hf2, if_pos (by rw [hsome]; rfl)]
    · intro doBind
      rw [implicit_bind, if_neg (by rw [hsome]; simp)]

/-- Witness for C9: binding a fresh Unix socket handle to an empty path
fails with `ENOENT`, yet leaves `localaddr` populated, so rebinding
yields `EINVAL` and implicit binds are skipped. -/
theorem bind_failure_sets_localaddr_witness :
    ((-2 : Int) = -ENOENT ∨ (-2 : Int) = -ENOTDIR ∨ (-2 : Int) = -EADDRINUSE)
  ∧ demoBoundState.handle.localaddr = some demoAddr
  ∧ (∀ (time2 : Nat) (cwd2 : List String) (addr2 : SockAddrUnix)
      (inetBind2 : BindState → SockAddrUnix → Int × BindState),
      bind_inner_socket time2 cwd2 demoBoundState addr2 inetBind2
        = some (syscall_error EINVAL, demoBoundState))
  ∧ (∀ doBind : BindState → Int × BindState,
      implicit_bind demoBoundState doBind = (0, demoBoundState)) :=
  bind_failure_sets_localaddr 0 [] demoBindState demoAddr demoInetBind
    rfl rfl rfl (-2) demoBoundState (by decide) (by norm_num)

/-- Witness for C10: a socket on fd 4 with a full fd table. -/
theorem accept_syscall_fdtable_full_witness :
    accept_syscall (some (FdEntry.sock 1)) 4 (-24) id id = 4
  ∧ 0 ≤ accept_syscall (some (FdEntry.sock 1)) 4 (-24) id id :=
  accept_syscall_fdtable_full (FdEntry.sock 1) 4 (-24) id id
    (by norm_num) (by norm_num)

end SafePosix
